import Mathlib

/-!
Verification of the interactive layer of a static portfolio website.

The development shallowly embeds the client-side JavaScript modules
(interactions, scroll, events, email, quotes, the global error handler and
the service worker cache bookkeeping) as pure Lean functions, and proves the
spec's testable properties about them.  DOM class state is modelled as
Boolean flags, numbers as Int/Nat, and stateful handlers as functions from
inputs to an explicit outcome value.
-/

namespace Portfolio

/-! ## Toggle groups (js/modules/interactions.js, js/main.js)

A toggle group (the certification badges with class cert-badge, or the
project cards with class project-card) is modelled as a list of Booleans:
entry k is true exactly when the k-th member of the group, in document
order, carries the expanded class.

Both toggleCert and toggleProject have the same effect on the class state:
they capture isExpanded of the clicked element, remove the expanded class
from every other member of the group that has it (toggleCert via
collapseWithAnimation, whose catch fallback also just removes the class;
toggleProject via classList.remove), and then set the clicked element's
class to the negation of the captured state.  The animation details
(inline height, timers, scrollIntoView) do not touch the class, so the
class state after the call is: member i negated, every other member false.
-/

/-- Class-state effect of toggleCert / toggleProject on its group: the
toggled element at position i ends with the negation of its previous
expanded state, every other group member ends collapsed. -/
def toggleFlags (i : Nat) : List Bool → List Bool
  | [] => []
  | b :: rest =>
    match i with
    | 0 => (!b) :: rest.map (fun _ => false)
    | j + 1 => false :: toggleFlags j rest

/-- Combined expansion state of the two independent toggle groups on a
page: cert badges and project cards. -/
structure ToggleState where
  certs : List Bool
  projs : List Bool
deriving Repr, DecidableEq

/-- One user toggle click, dispatched (via data-toggle) either to
toggleCert on cert badge i or to toggleProject on project card i. -/
inductive ToggleOp where
  | cert (i : Nat)
  | project (i : Nat)
deriving Repr, DecidableEq

/-- Effect of one toggle call on the page's class state.  toggleCert only
queries and mutates .cert-badge elements, toggleProject only
.project-card elements, so each op leaves the other group untouched. -/
def applyToggleOp (s : ToggleState) : ToggleOp → ToggleState
  | .cert i => { s with certs := toggleFlags i s.certs }
  | .project i => { s with projs := toggleFlags i s.projs }

/-- Run a finite sequence of toggle calls, in order. -/
def runToggleOps (ops : List ToggleOp) (s : ToggleState) : ToggleState :=
  ops.foldl applyToggleOp s

/-- At most one member of a group carries the expanded class. -/
def atMostOneExpanded (l : List Bool) : Prop :=
  l.count true ≤ 1

instance (l : List Bool) : Decidable (atMostOneExpanded l) := by
  unfold atMostOneExpanded; infer_instance

/-- Does a sequence of clicks contain at least one toggle of the cert
group? -/
def touchesCerts (ops : List ToggleOp) : Prop :=
  ∃ i, ToggleOp.cert i ∈ ops

/-- Does a sequence of clicks contain at least one toggle of the project
group? -/
def touchesProjs (ops : List ToggleOp) : Prop :=
  ∃ i, ToggleOp.project i ∈ ops

/-! ## Scroll: active section and sidebar window
(js/modules/scroll.js, js/main.js, updateActiveNavLink)

Inputs that updateActiveNavLink reads from the DOM are passed explicitly:
the list of section[id] elements in document order (id attribute and
offsetTop, in CSS pixels), window.scrollY, window.innerHeight and
document.documentElement.scrollHeight.  All are modelled as Int.
-/

def NAVBAR_OFFSET : Int := 150
def BOTTOM_THRESHOLD : Int := 10
def VISIBLE_ITEMS : Int := 5

/-- A section element selected by the query section[id]. -/
structure PageSection where
  id : String
  offsetTop : Int
deriving Repr, DecidableEq

/-- The loop condition: window.scrollY >= section.offsetTop - NAVBAR_OFFSET. -/
def sectionPassed (scrollY : Int) (s : PageSection) : Bool :=
  scrollY ≥ s.offsetTop - NAVBAR_OFFSET

/-- window.scrollY + window.innerHeight >= scrollHeight - BOTTOM_THRESHOLD. -/
def isAtBottom (scrollY innerHeight scrollHeight : Int) : Bool :=
  scrollY + innerHeight ≥ scrollHeight - BOTTOM_THRESHOLD

/-- The currentSection computation of updateActiveNavLink: start from
sections[0]?.getAttribute(id) or the empty string, overwrite with each
section's id whose top passes the navbar-adjusted scroll position, then,
when at the bottom of the page, force the last section's id (falling back
to the loop result when that id is the empty string, per the JS
short-circuit with the logical-or operator). -/
def computeCurrentSection (sections : List PageSection)
    (scrollY innerHeight scrollHeight : Int) : String :=
  let initial := match sections.head? with
    | some s => s.id
    | none => ""
  let afterLoop := sections.foldl
    (fun cur s => if sectionPassed scrollY s then s.id else cur) initial
  if isAtBottom scrollY innerHeight scrollHeight ∧ sections ≠ [] then
    match sections.getLast? with
    | some lastSec => if lastSec.id = "" then afterLoop else lastSec.id
    | none => afterLoop
  else afterLoop

/-- The visible-window bounds computed for the sidebar links: clamp
activeIndex - floor(VISIBLE_ITEMS/2) at zero, take a window of
VISIBLE_ITEMS indices, and when the window end overruns the link count pin
the end at the last index and re-clamp the start. -/
def visibleWindow (numLinks activeIndex : Int) : Int × Int :=
  let halfWindow := VISIBLE_ITEMS / 2
  let ws0 := activeIndex - halfWindow
  let ws1 := if ws0 < 0 then 0 else ws0
  let we0 := ws1 + VISIBLE_ITEMS - 1
  if we0 ≥ numLinks then
    (max 0 (numLinks - 1 - VISIBLE_ITEMS + 1), numLinks - 1)
  else
    (ws1, we0)

/-- Inline style and aria state written to one sidebar link. -/
structure LinkStyle where
  opacity : String
  visibility : String
  pointerEvents : String
  ariaHidden : String
deriving Repr, DecidableEq

/-- Style written by the links.forEach loop to the link at a given index:
links outside the window get opacity 0, hidden, no pointer events, and
aria-hidden; links inside get opacity by capped distance from the active
index (1 at distance 0, 0.5 at distance 1, 0.3 beyond). -/
def linkStyle (activeIndex ws we index : Int) : LinkStyle :=
  if index ≥ ws ∧ index ≤ we then
    let distance := min 2 (index - activeIndex).natAbs
    let opacity := if distance = 0 then "1"
      else if distance = 1 then "0.5" else "0.3"
    { opacity := opacity, visibility := "visible",
      pointerEvents := "auto", ariaHidden := "false" }
  else
    { opacity := "0", visibility := "hidden",
      pointerEvents := "none", ariaHidden := "true" }

/-! ## Email obfuscation (js/modules/email.js) and event delegation
(js/modules/events.js)

A DOM element is modelled by the data attributes the delegated click
handler inspects, plus its tag name.  A click event is modelled by the
chain of elements from the event target up through its ancestors, in
closest-search order (the target itself first). -/

/-- The slice of a DOM element visible to the delegated click handler. -/
structure Elem where
  dataToggle : Option String := none
  dataAction : Option String := none
  dataUser : Option String := none
  dataDomain : Option String := none
  tagName : String := "DIV"
deriving Repr, DecidableEq

/-- element.closest(selector): nearest element in the ancestor chain
(starting at the target itself) whose attributes match. -/
def closestElem (p : Elem → Bool) (chain : List Elem) : Option Elem :=
  chain.find? p

/-- constructEmail: null unless both data-user and data-domain are present
and non-empty (JS truthiness on strings), else user, at-sign, domain. -/
def constructEmail (el : Elem) : Option String :=
  match el.dataUser, el.dataDomain with
  | some user, some domain =>
    if user = "" ∨ domain = "" then none
    else some (user ++ "@" ++ domain)
  | _, _ => none

/-- The characters the ECMAScript encodeURIComponent leaves unescaped:
ASCII letters, digits, and - _ . ! ~ * apostrophe ( ). -/
def isUnreservedURIChar (c : Char) : Bool :=
  c.isAlpha || c.isDigit ||
    c ∈ ['-', '_', '.', '!', '~', '*', Char.ofNat 39, '(', ')']

/-- UTF-8 byte sequence of one code point. -/
def utf8Bytes (c : Char) : List Nat :=
  let n := c.toNat
  if n < 0x80 then [n]
  else if n < 0x800 then
    [0xC0 + n / 0x40, 0x80 + n % 0x40]
  else if n < 0x10000 then
    [0xE0 + n / 0x1000, 0x80 + n / 0x40 % 0x40, 0x80 + n % 0x40]
  else
    [0xF0 + n / 0x40000, 0x80 + n / 0x1000 % 0x40,
     0x80 + n / 0x40 % 0x40, 0x80 + n % 0x40]

/-- Uppercase hexadecimal digit. -/
def hexDigit (n : Nat) : Char :=
  if n < 10 then Char.ofNat (48 + n) else Char.ofNat (65 + (n - 10))

/-- Percent-encoding of one byte, with uppercase hex digits. -/
def percentByte (b : Nat) : List Char :=
  ['%', hexDigit (b / 16), hexDigit (b % 16)]

/-- encodeURIComponent on one code point: kept verbatim when unreserved,
otherwise each UTF-8 byte percent-encoded. -/
def encodeChar (c : Char) : List Char :=
  if isUnreservedURIChar c then [c]
  else ((utf8Bytes c).map percentByte).flatten

/-- The ECMAScript encodeURIComponent function on a string. -/
def encodeURIComponent (s : String) : String :=
  String.mk ((s.data.map encodeChar).flatten)

/-- Observable outcome of the delegated click dispatch. -/
inductive DispatchResult where
  | certToggled (el : Elem)
  | projectToggled (el : Elem)
  | unknownToggleWarned (t : String)
  | scrolledTop
  | unknownActionWarned (a : String)
  | emailNavigated (href : String)
  | emailErrorLogged
  | noop
deriving Repr, DecidableEq

/-- Outcome of one click: whether preventDefault was called, and which
handler (if any) acted. -/
structure ClickOutcome where
  prevented : Bool
  result : DispatchResult
deriving Repr, DecidableEq

/-- handleEmailClick: preventDefault, then navigate to the mailto URL of
the URI-encoded constructed address, or log an error when construction
fails. -/
def handleEmailClick (el : Elem) : ClickOutcome :=
  { prevented := true
    result :=
      match constructEmail el with
      | some email => .emailNavigated ("mailto:" ++ encodeURIComponent email)
      | none => .emailErrorLogged }

/-- The delegated document-level click handler of initializeEventDelegation:
closest data-toggle target first (preventDefault, then dispatch on the
toggle value, warning on unknown values), else closest data-action target
(preventDefault, then dispatch on the action value, warning on unknown
values), else closest element with both data-user and data-domain, handled
only when it is an anchor tag. -/
def handleDocumentClick (chain : List Elem) : ClickOutcome :=
  match closestElem (fun el => el.dataToggle.isSome) chain with
  | some toggleTarget =>
    let ty := toggleTarget.dataToggle.getD ""
    if ty = "cert" then { prevented := true, result := .certToggled toggleTarget }
    else if ty = "project" then
      { prevented := true, result := .projectToggled toggleTarget }
    else { prevented := true, result := .unknownToggleWarned ty }
  | none =>
    match closestElem (fun el => el.dataAction.isSome) chain with
    | some actionTarget =>
      let act := actionTarget.dataAction.getD ""
      if act = "scroll-top" then { prevented := true, result := .scrolledTop }
      else { prevented := true, result := .unknownActionWarned act }
    | none =>
      match closestElem
          (fun el => el.dataUser.isSome && el.dataDomain.isSome) chain with
      | some emailTarget =>
        if emailTarget.tagName = "A" then handleEmailClick emailTarget
        else { prevented := false, result := .noop }
      | none => { prevented := false, result := .noop }

/-! ## Quotes (js/modules/quotes.js) -/

/-- The fixed quotes list. -/
def quotes : List String :=
  ["Security is not a product, but a process. It requires continuous adaptation and strategic thinking. - Bruce Schneier",
   "The intersection of security and business strategy is where true organizational resilience is built. - Anonymous",
   "Effective security leadership means translating technical risk into business language. - Anonymous",
   "In cybersecurity, proactive governance and risk management are the foundations of trust. - Anonymous",
   "Security architecture must enable business agility while maintaining robust controls. - Anonymous",
   "The best security programs align technical excellence with organizational objectives. - Anonymous",
   "Defense in depth is not paranoia—it\x27s strategic risk management at every layer. - Anonymous",
   "Trust is earned through transparency, competence, and consistent delivery of secure solutions. - Anonymous",
   "Companies spend millions of dollars on firewalls and encryption, but it\x27s money wasted because none of these measures address the weakest link in the security chain: the people. - Kevin Mitnick",
   "If you think technology can solve your security problems, then you don\x27t understand the problems and you don\x27t understand the technology. - Bruce Schneier",
   "Moving from reactive defense to proactive resilience is a real opportunity for leaders to drive strategic business growth. - Nick Godfrey",
   "The role of the CISO is expanding, absorbing responsibilities that go beyond traditional IT security. - John Furrier"]

/-- Parsed quote: text and author. -/
structure ParsedQuote where
  text : String
  author : String
deriving Repr, DecidableEq

/-- The JS String split with the fixed three-character separator
space-dash-space used by parseQuote: scan left to right, cut at each
non-overlapping occurrence of the separator. -/
def splitOnDash : List Char → List (List Char)
  | [] => [[]]
  | ' ' :: '-' :: ' ' :: rest => [] :: splitOnDash rest
  | c :: rest =>
    match splitOnDash rest with
    | [] => [[c]]
    | p :: ps => (c :: p) :: ps

/-- quoteString.split applied through the List Char representation. -/
def splitQuote (s : String) : List String :=
  (splitOnDash s.data).map String.mk

/-- The JS String trim: strip leading and trailing whitespace. -/
def trimChars (l : List Char) : List Char :=
  ((l.dropWhile Char.isWhitespace).reverse.dropWhile Char.isWhitespace).reverse

/-- String-level trim. -/
def trimStr (s : String) : String :=
  String.mk (trimChars s.data)

/-- parseQuote: falsy or non-string input maps to empty text and Anonymous;
otherwise split on the separator, text is the trimmed first part (or
empty), author the trimmed second part when one exists, else Anonymous. -/
def parseQuote (quoteString : String) : ParsedQuote :=
  if quoteString = "" then { text := "", author := "Anonymous" }
  else
    let parts := splitQuote quoteString
    let text := ((parts.head?.map trimStr).getD "")
    let author :=
      if parts.length > 1 then ((parts.drop 1).head?.map trimStr).getD ""
      else "Anonymous"
    { text := text, author := author }

/-- getRandomQuote with the Math.floor(Math.random() * quotes.length)
index made explicit: the fallback string when the list is empty, else the
entry at randomIndex. -/
def getRandomQuote (randomIndex : Nat) : String :=
  if quotes.length = 0 then
    "Security is a continuous journey of improvement.  - Anonymous"
  else
    quotes.getD randomIndex ""

/-! ## Global error handler (error-handler module; logError) -/

/-- errorState.maxErrors. -/
def maxErrors : Nat := 50

/-- One logError call: push the new entry at the back of the buffer, and
when the length then exceeds maxErrors, shift off the oldest (front)
entry.  Entries are kept abstract. -/
def logErrorStep {α : Type} (buf : List α) (entry : α) : List α :=
  let pushed := buf ++ [entry]
  if pushed.length > maxErrors then pushed.drop 1 else pushed

/-- The buffer after a sequence of logError calls, starting from the
initial empty errorState.errors. -/
def runLogErrors {α : Type} (entries : List α) : List α :=
  entries.foldl logErrorStep []

/-! ## Service worker cache bookkeeping -/

/-- Modelled from the spec: the service worker script itself (generated by
the build pipeline) is not among the sources; section 4.4 of the spec says
activation deletes any previously named cache that shares the version
prefix but is not the new cache name.  Cache storage is modelled as the
list of cache names. -/
def swActivate (versionPfx newName : String) (caches : List String) :
    List String :=
  caches.filter (fun c => !(versionPfx.isPrefixOf c) || c = newName)

/-- Messages the service worker accepts from pages. -/
inductive SwMessage where
  | skipWaiting
  | clearCache
deriving Repr, DecidableEq

/-- Modelled from the spec: the message handler of the generated service
worker.  The clear-cache command deletes the active cache and acknowledges
via the reply port; skip-waiting forces activation and sends no reply.
Returns the remaining cache names and whether an acknowledgement was
sent. -/
def swHandleMessage (activeName : String) (caches : List String) :
    SwMessage → List String × Bool
  | .skipWaiting => (caches, false)
  | .clearCache => (caches.erase activeName, true)

/-! ## Theorems: toggle groups -/

theorem toggleFlags_length (i : Nat) (l : List Bool) :
    (toggleFlags i l).length = l.length := by
  induction l generalizing i with
  | nil => cases i <;> rfl
  | cons b rest ih =>
    cases i with
    | zero => simp [toggleFlags]
    | succ j => simp [toggleFlags, ih]

theorem toggleFlags_get_self (i : Nat) (l : List Bool) (h : i < l.length) :
    (toggleFlags i l).get ⟨i, by rw [toggleFlags_length]; exact h⟩ =
      !(l.get ⟨i, h⟩) := by
  induction l generalizing i with
  | nil => exact absurd h (by simp)
  | cons b rest ih =>
    cases i with
    | zero => rfl
    | succ j => exact ih j (Nat.lt_of_succ_lt_succ h)

theorem toggleFlags_get_other (i k : Nat) (l : List Bool)
    (hk : k < l.length) (hne : k ≠ i) :
    (toggleFlags i l).get ⟨k, by rw [toggleFlags_length]; exact hk⟩ = false := by
  induction l generalizing i k with
  | nil => exact absurd hk (by simp)
  | cons b rest ih =>
    cases i with
    | zero =>
      cases k with
      | zero => exact absurd rfl hne
      | succ m =>
        show (rest.map (fun _ => false)).get _ = false
        simp [List.getElem_map]
    | succ j =>
      cases k with
      | zero => rfl
      | succ m =>
        exact ih j m (Nat.lt_of_succ_lt_succ hk)
          (fun hc => hne (congrArg Nat.succ hc))

/-- After one toggle call, the group has at most one expanded member,
whatever the previous state was. -/
theorem atMostOneExpanded_toggleFlags (i : Nat) (l : List Bool) :
    atMostOneExpanded (toggleFlags i l) := by
  unfold atMostOneExpanded
  induction l generalizing i with
  | nil => cases i <;> simp [toggleFlags]
  | cons b rest ih =>
    cases i with
    | zero =>
      cases b <;> simp [toggleFlags, List.count_cons, List.count_replicate]
    | succ j =>
      simpa [toggleFlags, List.count_cons] using ih j

theorem runToggleOps_append (ops : List ToggleOp) (op : ToggleOp)
    (s : ToggleState) :
    runToggleOps (ops ++ [op]) s = applyToggleOp (runToggleOps ops s) op := by
  simp [runToggleOps, List.foldl_append]

/-- C1 counterexample: the claim quantifies over every initial expansion
state and every finite sequence of toggle calls, but a sequence that never
toggles a given group leaves that group's expansion state untouched, so a
group that starts with two expanded members still has two after the
sequence completes.  Here the cert-badge group starts with both members
expanded and the (nonempty) sequence only toggles a project card. -/
theorem toggle_group_invariant_counterexample :
    (runToggleOps [ToggleOp.project 0]
        { certs := [true, true], projs := [false] }).certs = [true, true] ∧
    ¬ atMostOneExpanded (runToggleOps [ToggleOp.project 0]
        { certs := [true, true], projs := [false] }).certs := by
  constructor
  · rfl
  · decide

/-- C1 (amended): for every initial expansion state of the two toggle
groups and every finite sequence of toggleCert / toggleProject calls, each
group that the sequence toggles at least once ends with at most one member
carrying the expanded class; a group the sequence never toggles keeps its
initial state, so the original unconditional claim fails only on such
sequences. -/
theorem toggle_group_at_most_one_expanded (s : ToggleState)
    (ops : List ToggleOp) :
    (touchesCerts ops → atMostOneExpanded (runToggleOps ops s).certs) ∧
    (touchesProjs ops → atMostOneExpanded (runToggleOps ops s).projs) := by
  induction ops using List.reverseRecOn with
  | nil =>
    constructor <;> rintro ⟨i, hi⟩ <;> simp at hi
  | append_singleton ops op ih =>
    rw [runToggleOps_append]
    constructor
    · rintro ⟨i, hi⟩
      cases op with
      | cert j =>
        show atMostOneExpanded (toggleFlags j (runToggleOps ops s).certs)
        exact atMostOneExpanded_toggleFlags j _
      | project j =>
        show atMostOneExpanded (runToggleOps ops s).certs
        rcases List.mem_append.mp hi with hmem | hmem
        · exact ih.1 ⟨i, hmem⟩
        · simp at hmem
    · rintro ⟨i, hi⟩
      cases op with
      | project j =>
        show atMostOneExpanded (toggleFlags j (runToggleOps ops s).projs)
        exact atMostOneExpanded_toggleFlags j _
      | cert j =>
        show atMostOneExpanded (runToggleOps ops s).projs
        rcases List.mem_append.mp hi with hmem | hmem
        · exact ih.2 ⟨i, hmem⟩
        · simp at hmem

theorem toggle_group_at_most_one_expanded_witness :
    touchesCerts [ToggleOp.cert 0, ToggleOp.project 1] ∧
    touchesProjs [ToggleOp.cert 0, ToggleOp.project 1] ∧
    atMostOneExpanded (runToggleOps [ToggleOp.cert 0, ToggleOp.project 1]
      { certs := [true, true], projs := [true, true, true] }).certs ∧
    atMostOneExpanded (runToggleOps [ToggleOp.cert 0, ToggleOp.project 1]
      { certs := [true, true], projs := [true, true, true] }).projs :=
  have hc : touchesCerts [ToggleOp.cert 0, ToggleOp.project 1] :=
    ⟨0, by decide⟩
  have hp : touchesProjs [ToggleOp.cert 0, ToggleOp.project 1] :=
    ⟨1, by decide⟩
  ⟨hc, hp,
    (toggle_group_at_most_one_expanded
      { certs := [true, true], projs := [true, true, true] }
      [ToggleOp.cert 0, ToggleOp.project 1]).1 hc,
    (toggle_group_at_most_one_expanded
      { certs := [true, true], projs := [true, true, true] }
      [ToggleOp.cert 0, ToggleOp.project 1]).2 hp⟩

/-- C3: toggling an expanded group member collapses it; toggling a
collapsed member expands it and collapses every other member of the same
group.  toggleFlags is the common class-state effect of toggleCert and
toggleProject on their respective groups. -/
theorem toggle_element_collapse_expand (l : List Bool) (i : Nat)
    (h : i < l.length) :
    (l.getD i false = true → (toggleFlags i l).getD i false = false) ∧
    (l.getD i false = false →
      (toggleFlags i l).getD i false = true ∧
      ∀ k, k < l.length → k ≠ i → (toggleFlags i l).getD k false = false) := by
  have hlen : i < (toggleFlags i l).length := by
    rw [toggleFlags_length]; exact h
  rw [List.getD_eq_get l false h, List.getD_eq_get _ false hlen]
  constructor
  · intro hexp
    have := toggleFlags_get_self i l h
    rw [this, hexp]
    rfl
  · intro hcol
    refine ⟨?_, ?_⟩
    · have := toggleFlags_get_self i l h
      rw [this, hcol]
      rfl
    · intro k hk hne
      have hk2 : k < (toggleFlags i l).length := by
        rw [toggleFlags_length]; exact hk
      rw [List.getD_eq_get _ false hk2]
      exact toggleFlags_get_other i k l hk hne

theorem toggle_element_collapse_expand_witness :
    (0 < ([false, true] : List Bool).length) ∧
    ((([false, true] : List Bool).getD 0 false = true →
      (toggleFlags 0 [false, true]).getD 0 false = false) ∧
     (([false, true] : List Bool).getD 0 false = false →
      (toggleFlags 0 [false, true]).getD 0 false = true ∧
      ∀ k, k < ([false, true] : List Bool).length → k ≠ 0 →
        (toggleFlags 0 [false, true]).getD k false = false)) :=
  ⟨by decide, toggle_element_collapse_expand [false, true] 0 (by decide)⟩

/-! ## Theorems: active-section computation -/

/-- The overwrite-as-you-scan loop computes the last matching element: it
equals the first match in the reversed list, defaulting to the initial
value. -/
theorem foldl_choose_eq_find_reverse {α β : Type} (p : α → Bool) (f : α → β)
    (init : β) (l : List α) :
    l.foldl (fun cur s => if p s then f s else cur) init =
      ((l.reverse.find? p).map f).getD init := by
  induction l generalizing init with
  | nil => rfl
  | cons a l ih =>
    simp only [List.foldl_cons, List.reverse_cons, ih, List.find?_append]
    cases hfind : l.reverse.find? p with
    | some s => simp
    | none => cases hp : p a <;> simp [List.find?_cons, hp]

theorem mem_of_getLast?_eq_some {α : Type} {l : List α} {a : α}
    (h : l.getLast? = some a) : a ∈ l := by
  induction l with
  | nil => simp at h
  | cons b t ih =>
    cases t with
    | nil =>
      simp only [List.getLast?_singleton, Option.some.injEq] at h
      simp [h]
    | cons c t2 =>
      rw [List.getLast?_cons_cons] at h
      exact List.mem_cons_of_mem _ (ih h)

/-- C2: for fixed inputs the active-section computation is deterministic,
picks the last section in document order whose offsetTop minus the navbar
offset is at most scrollY, and when the page is within the bottom
threshold of the document height it picks the last section regardless.
Section ids are assumed non-empty, as produced by the section[id]
selector on well-formed markup. -/
theorem active_section_deterministic_last_match (sections : List PageSection)
    (scrollY innerHeight scrollHeight : Int)
    (hids : ∀ s ∈ sections, s.id ≠ "") :
    (computeCurrentSection sections scrollY innerHeight scrollHeight =
      computeCurrentSection sections scrollY innerHeight scrollHeight) ∧
    (isAtBottom scrollY innerHeight scrollHeight = false →
      ∀ s, sections.reverse.find? (sectionPassed scrollY) = some s →
        computeCurrentSection sections scrollY innerHeight scrollHeight =
          s.id) ∧
    (isAtBottom scrollY innerHeight scrollHeight = true →
      ∀ lastSec, sections.getLast? = some lastSec →
        computeCurrentSection sections scrollY innerHeight scrollHeight =
          lastSec.id) := by
  refine ⟨rfl, ?_, ?_⟩
  · intro hnb s hfind
    unfold computeCurrentSection
    dsimp only
    rw [foldl_choose_eq_find_reverse]
    simp [hnb, hfind]
  · intro hb lastSec hlast
    have hne : sections ≠ [] := by
      rintro rfl; simp at hlast
    have hmem : lastSec ∈ sections := mem_of_getLast?_eq_some hlast
    have hid : lastSec.id ≠ "" := hids lastSec hmem
    unfold computeCurrentSection
    dsimp only
    rw [if_pos ⟨hb, hne⟩, hlast]
    simp [hid]

theorem active_section_deterministic_last_match_witness :
    (∀ s ∈ ([⟨"intro", 0⟩, ⟨"work", 500⟩, ⟨"contact", 900⟩] :
        List PageSection), s.id ≠ "") ∧
    isAtBottom 400 800 2000 = false ∧
    ([⟨"intro", 0⟩, ⟨"work", 500⟩, ⟨"contact", 900⟩] :
        List PageSection).reverse.find? (sectionPassed 400) =
      some ⟨"work", 500⟩ ∧
    computeCurrentSection [⟨"intro", 0⟩, ⟨"work", 500⟩, ⟨"contact", 900⟩]
        400 800 2000 = "work" := by
  refine ⟨by decide, by decide, by decide, ?_⟩
  exact (active_section_deterministic_last_match
      [⟨"intro", 0⟩, ⟨"work", 500⟩, ⟨"contact", 900⟩] 400 800 2000
      (by decide)).2.1 (by decide) ⟨"work", 500⟩ (by decide)

/-- C10: when no section has passed the navbar-adjusted scroll position
and the page is not at the bottom, the computation keeps its initial
value, the first section's id, so an active section is always defined
when any section exists. -/
theorem active_section_defaults_to_first (sections : List PageSection)
    (scrollY innerHeight scrollHeight : Int)
    (hnone : ∀ s ∈ sections, sectionPassed scrollY s = false)
    (hnb : isAtBottom scrollY innerHeight scrollHeight = false)
    (s0 : PageSection) (hhead : sections.head? = some s0) :
    computeCurrentSection sections scrollY innerHeight scrollHeight =
      s0.id := by
  unfold computeCurrentSection
  dsimp only
  rw [foldl_choose_eq_find_reverse]
  have hfind : sections.reverse.find? (sectionPassed scrollY) = none :=
    List.find?_eq_none.mpr fun x hx => by
      simp [hnone x (List.mem_reverse.mp hx)]
  simp [hnb, hfind, hhead]

theorem active_section_defaults_to_first_witness :
    (∀ s ∈ ([⟨"top", 1000⟩, ⟨"mid", 1500⟩] : List PageSection),
      sectionPassed 0 s = false) ∧
    isAtBottom 0 500 2000 = false ∧
    ([⟨"top", 1000⟩, ⟨"mid", 1500⟩] : List PageSection).head? =
      some ⟨"top", 1000⟩ ∧
    computeCurrentSection [⟨"top", 1000⟩, ⟨"mid", 1500⟩] 0 500 2000 =
      "top" := by
  refine ⟨by decide, by decide, by decide, ?_⟩
  exact active_section_defaults_to_first [⟨"top", 1000⟩, ⟨"mid", 1500⟩]
    0 500 2000 (by decide) (by decide) ⟨"top", 1000⟩ (by decide)

/-! ## Theorems: sidebar visible window -/

theorem visibleWindow_bounds (n i : Int) (h0 : 0 ≤ i) (h : i < n) :
    0 ≤ (visibleWindow n i).1 ∧ (visibleWindow n i).1 ≤ i ∧
    i ≤ (visibleWindow n i).2 ∧ (visibleWindow n i).2 ≤ n - 1 ∧
    (visibleWindow n i).2 - (visibleWindow n i).1 + 1 = min 5 n ∧
    (2 ≤ i → i + 2 ≤ n - 1 →
      (visibleWindow n i).1 = i - 2 ∧ (visibleWindow n i).2 = i + 2) := by
  have hhalf : VISIBLE_ITEMS / 2 = 2 := by decide
  simp only [visibleWindow, hhalf, VISIBLE_ITEMS]
  split_ifs <;>
    refine ⟨by omega, by omega, by omega, by omega, by omega,
      fun h2 h3 => ⟨by omega, by omega⟩⟩

theorem linkStyle_in_window (activeIndex ws we index : Int)
    (hin : ws ≤ index ∧ index ≤ we) :
    linkStyle activeIndex ws we index =
      { opacity := if index = activeIndex then "1"
          else if (index - activeIndex).natAbs = 1 then "0.5" else "0.3",
        visibility := "visible", pointerEvents := "auto",
        ariaHidden := "false" } := by
  unfold linkStyle
  rw [if_pos ⟨hin.1, hin.2⟩]
  by_cases heq : index = activeIndex
  · simp [heq]
  · have hne : (index - activeIndex).natAbs ≠ 0 := by omega
    by_cases h1 : (index - activeIndex).natAbs = 1
    · simp [heq, h1]
    · have h2 : min 2 (index - activeIndex).natAbs = 2 := by omega
      simp [heq, h1, h2]

theorem linkStyle_out_window (activeIndex ws we index : Int)
    (hout : ¬ (ws ≤ index ∧ index ≤ we)) :
    linkStyle activeIndex ws we index =
      { opacity := "0", visibility := "hidden", pointerEvents := "none",
        ariaHidden := "true" } := by
  unfold linkStyle
  rw [if_neg (fun hc => hout ⟨hc.1, hc.2⟩)]

/-- C4: for n sidebar links and active index i, the visible window is a
contiguous range of exactly min 5 n indices, clamped to the valid index
range, containing i and centered on i when no clamping applies; links in
the window get opacity 1 at the active index, 0.5 at index distance 1 and
0.3 at distance 2 or more, and links outside the window get opacity 0,
hidden visibility and no pointer events. -/
theorem sidebar_window_spec (n i : Nat) (h : i < n) :
    0 ≤ (visibleWindow (n : Int) (i : Int)).1 ∧
    (visibleWindow (n : Int) (i : Int)).1 ≤ (i : Int) ∧
    (i : Int) ≤ (visibleWindow (n : Int) (i : Int)).2 ∧
    (visibleWindow (n : Int) (i : Int)).2 ≤ (n : Int) - 1 ∧
    (visibleWindow (n : Int) (i : Int)).2 -
        (visibleWindow (n : Int) (i : Int)).1 + 1 = min 5 (n : Int) ∧
    (2 ≤ (i : Int) → (i : Int) + 2 ≤ (n : Int) - 1 →
      (visibleWindow (n : Int) (i : Int)).1 = (i : Int) - 2 ∧
      (visibleWindow (n : Int) (i : Int)).2 = (i : Int) + 2) ∧
    (∀ j : Nat, j < n →
      ((visibleWindow (n : Int) (i : Int)).1 ≤ (j : Int) ∧
          (j : Int) ≤ (visibleWindow (n : Int) (i : Int)).2 →
        linkStyle (i : Int) (visibleWindow (n : Int) (i : Int)).1
            (visibleWindow (n : Int) (i : Int)).2 (j : Int) =
          { opacity := if j = i then "1"
              else if ((j : Int) - (i : Int)).natAbs = 1 then "0.5"
              else "0.3",
            visibility := "visible", pointerEvents := "auto",
            ariaHidden := "false" }) ∧
      (¬ ((visibleWindow (n : Int) (i : Int)).1 ≤ (j : Int) ∧
          (j : Int) ≤ (visibleWindow (n : Int) (i : Int)).2) →
        linkStyle (i : Int) (visibleWindow (n : Int) (i : Int)).1
            (visibleWindow (n : Int) (i : Int)).2 (j : Int) =
          { opacity := "0", visibility := "hidden",
            pointerEvents := "none", ariaHidden := "true" })) := by
  have h0 : (0 : Int) ≤ (i : Int) := Int.ofNat_nonneg i
  have hin : (i : Int) < (n : Int) := by exact_mod_cast h
  obtain ⟨b1, b2, b3, b4, b5, b6⟩ := visibleWindow_bounds (n : Int) (i : Int) h0 hin
  refine ⟨b1, b2, b3, b4, b5, b6, ?_⟩
  intro j hj
  constructor
  · intro hjin
    rw [linkStyle_in_window _ _ _ _ hjin]
    by_cases hcase : j = i
    · simp [hcase]
    · have : ¬ ((j : Int) = (i : Int)) := fun hx => hcase (by exact_mod_cast hx)
      simp [hcase, this]
  · intro hjout
    exact linkStyle_out_window _ _ _ _ hjout

theorem sidebar_window_spec_witness :
    (2 : Nat) < 3 ∧
    (0 ≤ (visibleWindow (3 : Int) (2 : Int)).1 ∧
     (visibleWindow (3 : Int) (2 : Int)).1 ≤ (2 : Int) ∧
     (2 : Int) ≤ (visibleWindow (3 : Int) (2 : Int)).2 ∧
     (visibleWindow (3 : Int) (2 : Int)).2 ≤ (3 : Int) - 1 ∧
     (visibleWindow (3 : Int) (2 : Int)).2 -
         (visibleWindow (3 : Int) (2 : Int)).1 + 1 = min 5 (3 : Int) ∧
     (2 ≤ (2 : Int) → (2 : Int) + 2 ≤ (3 : Int) - 1 →
       (visibleWindow (3 : Int) (2 : Int)).1 = (2 : Int) - 2 ∧
       (visibleWindow (3 : Int) (2 : Int)).2 = (2 : Int) + 2) ∧
     (∀ j : Nat, j < 3 →
       ((visibleWindow (3 : Int) (2 : Int)).1 ≤ (j : Int) ∧
           (j : Int) ≤ (visibleWindow (3 : Int) (2 : Int)).2 →
         linkStyle (2 : Int) (visibleWindow (3 : Int) (2 : Int)).1
             (visibleWindow (3 : Int) (2 : Int)).2 (j : Int) =
           { opacity := if j = 2 then "1"
               else if ((j : Int) - (2 : Int)).natAbs = 1 then "0.5"
               else "0.3",
             visibility := "visible", pointerEvents := "auto",
             ariaHidden := "false" }) ∧
       (¬ ((visibleWindow (3 : Int) (2 : Int)).1 ≤ (j : Int) ∧
           (j : Int) ≤ (visibleWindow (3 : Int) (2 : Int)).2) →
         linkStyle (2 : Int) (visibleWindow (3 : Int) (2 : Int)).1
             (visibleWindow (3 : Int) (2 : Int)).2 (j : Int) =
           { opacity := "0", visibility := "hidden",
             pointerEvents := "none", ariaHidden := "true" }))) :=
  ⟨by decide, sidebar_window_spec 3 2 (by decide)⟩

/-! ## Theorems: event delegation and email obfuscation -/

/-- C5: the delegated click handler prefers a data-toggle ancestor, then a
data-action ancestor, then an anchor with data-user and data-domain; the
matching branch calls preventDefault before acting; unknown toggle or
action values produce only a console warning outcome (no toggle, scroll
or navigation effect) and the handler, being a total function, does not
throw. -/
theorem click_dispatch_routing (chain : List Elem) :
    (∀ t, closestElem (fun el => el.dataToggle.isSome) chain = some t →
      (handleDocumentClick chain).prevented = true ∧
      (t.dataToggle = some "cert" →
        (handleDocumentClick chain).result = .certToggled t) ∧
      (t.dataToggle = some "project" →
        (handleDocumentClick chain).result = .projectToggled t) ∧
      (∀ ty, t.dataToggle = some ty → ty ≠ "cert" → ty ≠ "project" →
        (handleDocumentClick chain).result = .unknownToggleWarned ty)) ∧
    (closestElem (fun el => el.dataToggle.isSome) chain = none →
      ∀ a, closestElem (fun el => el.dataAction.isSome) chain = some a →
        (handleDocumentClick chain).prevented = true ∧
        (a.dataAction = some "scroll-top" →
          (handleDocumentClick chain).result = .scrolledTop) ∧
        (∀ act, a.dataAction = some act → act ≠ "scroll-top" →
          (handleDocumentClick chain).result = .unknownActionWarned act)) ∧
    (closestElem (fun el => el.dataToggle.isSome) chain = none →
      closestElem (fun el => el.dataAction.isSome) chain = none →
      ∀ em, closestElem
          (fun el => el.dataUser.isSome && el.dataDomain.isSome) chain =
          some em →
        (em.tagName = "A" → handleDocumentClick chain = handleEmailClick em) ∧
        (em.tagName ≠ "A" →
          handleDocumentClick chain = { prevented := false, result := .noop })) ∧
    (closestElem (fun el => el.dataToggle.isSome) chain = none →
      closestElem (fun el => el.dataAction.isSome) chain = none →
      closestElem
          (fun el => el.dataUser.isSome && el.dataDomain.isSome) chain =
          none →
      handleDocumentClick chain = { prevented := false, result := .noop }) := by
  refine ⟨?_, ?_, ?_, ?_⟩
  · intro t ht
    simp only [handleDocumentClick, ht]
    refine ⟨by split_ifs <;> rfl, ?_, ?_, ?_⟩
    · intro hc
      rw [hc]
      simp
    · intro hp
      rw [hp]
      simp
    · intro ty hty hne1 hne2
      rw [hty]
      simp only [Option.getD_some]
      rw [if_neg hne1, if_neg hne2]
  · intro ht a ha
    simp only [handleDocumentClick, ht, ha]
    refine ⟨by split_ifs <;> rfl, ?_, ?_⟩
    · intro hs
      rw [hs]
      simp
    · intro act hact hne
      rw [hact]
      simp only [Option.getD_some]
      rw [if_neg hne]
  · intro ht ha em hem
    simp only [handleDocumentClick, ht, ha, hem]
    constructor
    · intro hA
      rw [if_pos hA]
    · intro hnA
      rw [if_neg hnA]
  · intro ht ha hem
    simp [handleDocumentClick, ht, ha, hem]

theorem click_dispatch_routing_witness :
    closestElem (fun el => el.dataToggle.isSome)
        [({ dataToggle := some "badge" } : Elem)] =
      some ({ dataToggle := some "badge" } : Elem) ∧
    (handleDocumentClick [({ dataToggle := some "badge" } : Elem)]).prevented =
      true ∧
    (handleDocumentClick [({ dataToggle := some "badge" } : Elem)]).result =
      .unknownToggleWarned "badge" :=
  have h : closestElem (fun el => el.dataToggle.isSome)
      [({ dataToggle := some "badge" } : Elem)] =
      some ({ dataToggle := some "badge" } : Elem) := by decide
  have hall := (click_dispatch_routing
      [({ dataToggle := some "badge" } : Elem)]).1 _ h
  ⟨h, hall.1, hall.2.2.2 "badge" rfl (by decide) (by decide)⟩

theorem encodeURIComponent_append (a b : String) :
    encodeURIComponent (a ++ b) =
      encodeURIComponent a ++ encodeURIComponent b := by
  cases a with | mk la =>
  cases b with | mk lb =>
  show String.mk _ = String.mk _ ++ String.mk _
  rw [show String.mk ((String.mk la ++ String.mk lb).data.map encodeChar).flatten =
      String.mk (((la ++ lb).map encodeChar).flatten) from rfl]
  show _ = String.mk ((la.map encodeChar).flatten ++ (lb.map encodeChar).flatten)
  rw [List.map_append, List.flatten_append]

theorem encodeURIComponent_unreserved (s : String)
    (hs : s.data.all isUnreservedURIChar) : encodeURIComponent s = s := by
  cases s with | mk l =>
  simp only [encodeURIComponent]
  congr 1
  induction l with
  | nil => rfl
  | cons c t ih =>
    simp only [List.all_cons, Bool.and_eq_true] at hs
    simp only [List.map_cons, List.flatten_cons, encodeChar, if_pos hs.1]
    rw [ih hs.2]
    rfl

theorem encodeURIComponent_at_sign : encodeURIComponent "@" = "%40" := by
  rfl

/-- C6: for nonempty user and domain, constructEmail yields
user at-sign domain, a click on such an anchor navigates to the mailto URL
of the URI-encoded address, and when user and domain consist of characters
encodeURIComponent leaves unescaped, that URL is exactly user, then the
percent-40 escape of the at-sign, then domain. -/
theorem email_construction_correct (user domain : String)
    (hu : user ≠ "") (hd : domain ≠ "") :
    constructEmail
        { dataUser := some user, dataDomain := some domain, tagName := "A" } =
      some (user ++ "@" ++ domain) ∧
    handleEmailClick
        { dataUser := some user, dataDomain := some domain, tagName := "A" } =
      { prevented := true,
        result := .emailNavigated
          ("mailto:" ++ encodeURIComponent (user ++ "@" ++ domain)) } ∧
    (user.data.all isUnreservedURIChar → domain.data.all isUnreservedURIChar →
      encodeURIComponent (user ++ "@" ++ domain) =
        user ++ "%40" ++ domain) := by
  have hce : constructEmail
      { dataUser := some user, dataDomain := some domain, tagName := "A" } =
      some (user ++ "@" ++ domain) := by
    simp [constructEmail, hu, hd]
  refine ⟨hce, ?_, ?_⟩
  · simp [handleEmailClick, hce]
  · intro h1 h2
    rw [encodeURIComponent_append, encodeURIComponent_append,
      encodeURIComponent_unreserved user h1,
      encodeURIComponent_unreserved domain h2, encodeURIComponent_at_sign]

theorem email_construction_correct_witness :
    ("a" : String) ≠ "" ∧ ("b.com" : String) ≠ "" ∧
    (constructEmail
        { dataUser := some "a", dataDomain := some "b.com", tagName := "A" } =
      some ("a" ++ "@" ++ "b.com") ∧
    handleEmailClick
        { dataUser := some "a", dataDomain := some "b.com", tagName := "A" } =
      { prevented := true,
        result := .emailNavigated
          ("mailto:" ++ encodeURIComponent ("a" ++ "@" ++ "b.com")) } ∧
    (("a" : String).data.all isUnreservedURIChar →
      ("b.com" : String).data.all isUnreservedURIChar →
      encodeURIComponent ("a" ++ "@" ++ "b.com") =
        "a" ++ "%40" ++ "b.com")) :=
  ⟨by decide, by decide,
    email_construction_correct "a" "b.com" (by decide) (by decide)⟩

/-! ## Theorems: quotes -/

set_option maxRecDepth 8192 in
/-- C7: every selection index below the list length yields a member of
the fixed 12-element quotes list, and parseQuote splits that string at
the space-dash-space separator into the trimmed part before (text) and
the trimmed part after (author); the separator occurs nowhere inside
either part, so the exhibited split is the unique one. -/
theorem quote_selection_correct (i : Nat) (h : i < quotes.length) :
    getRandomQuote i ∈ quotes ∧
    ∃ t a : String, getRandomQuote i = t ++ " - " ++ a ∧
      splitQuote t = [t] ∧ splitQuote a = [a] ∧
      parseQuote (getRandomQuote i) =
        { text := trimStr t, author := trimStr a } := by
  have h12 : i < 12 := by simpa [quotes] using h
  interval_cases i
  · exact ⟨by decide,
      "Security is not a product, but a process. It requires continuous adaptation and strategic thinking.",
      "Bruce Schneier", by decide, by decide, by decide, by decide⟩
  · exact ⟨by decide,
      "The intersection of security and business strategy is where true organizational resilience is built.",
      "Anonymous", by decide, by decide, by decide, by decide⟩
  · exact ⟨by decide,
      "Effective security leadership means translating technical risk into business language.",
      "Anonymous", by decide, by decide, by decide, by decide⟩
  · exact ⟨by decide,
      "In cybersecurity, proactive governance and risk management are the foundations of trust.",
      "Anonymous", by decide, by decide, by decide, by decide⟩
  · exact ⟨by decide,
      "Security architecture must enable business agility while maintaining robust controls.",
      "Anonymous", by decide, by decide, by decide, by decide⟩
  · exact ⟨by decide,
      "The best security programs align technical excellence with organizational objectives.",
      "Anonymous", by decide, by decide, by decide, by decide⟩
  · exact ⟨by decide,
      "Defense in depth is not paranoia—it\x27s strategic risk management at every layer.",
      "Anonymous", by decide, by decide, by decide, by decide⟩
  · exact ⟨by decide,
      "Trust is earned through transparency, competence, and consistent delivery of secure solutions.",
      "Anonymous", by decide, by decide, by decide, by decide⟩
  · exact ⟨by decide,
      "Companies spend millions of dollars on firewalls and encryption, but it\x27s money wasted because none of these measures address the weakest link in the security chain: the people.",
      "Kevin Mitnick", by decide, by decide, by decide, by decide⟩
  · exact ⟨by decide,
      "If you think technology can solve your security problems, then you don\x27t understand the problems and you don\x27t understand the technology.",
      "Bruce Schneier", by decide, by decide, by decide, by decide⟩
  · exact ⟨by decide,
      "Moving from reactive defense to proactive resilience is a real opportunity for leaders to drive strategic business growth.",
      "Nick Godfrey", by decide, by decide, by decide, by decide⟩
  · exact ⟨by decide,
      "The role of the CISO is expanding, absorbing responsibilities that go beyond traditional IT security.",
      "John Furrier", by decide, by decide, by decide, by decide⟩

set_option maxRecDepth 8192 in
theorem quote_selection_correct_witness :
    1 < quotes.length ∧
    (getRandomQuote 1 ∈ quotes ∧
     ∃ t a : String, getRandomQuote 1 = t ++ " - " ++ a ∧
       splitQuote t = [t] ∧ splitQuote a = [a] ∧
       parseQuote (getRandomQuote 1) =
         { text := trimStr t, author := trimStr a }) :=
  ⟨by decide, quote_selection_correct 1 (by decide)⟩

/-! ## Theorems: error log buffer -/

/-- C9: after logging any sequence of errors starting from the empty
buffer, the buffer holds exactly the most recent min(k, 50) entries, in
order; in particular it never exceeds maxErrors entries. -/
theorem logError_buffer_spec {α : Type} (entries : List α) :
    (runLogErrors entries).length = min entries.length maxErrors ∧
    runLogErrors entries = entries.drop (entries.length - maxErrors) := by
  induction entries using List.reverseRecOn with
  | nil => simp [runLogErrors]
  | append_singleton es e ih =>
    have hstep : runLogErrors (es ++ [e]) = logErrorStep (runLogErrors es) e := by
      simp [runLogErrors, List.foldl_append]
    obtain ⟨ihlen, ihval⟩ := ih
    rw [hstep, ihval]
    unfold logErrorStep maxErrors
    by_cases hlen : es.length < 50
    · have hd1 : es.length - 50 = 0 := by omega
      have hd2 : es.length + 1 - 50 = 0 := by omega
      rw [if_neg (by simp [hd1]; omega)]
      simp [hd1, hd2]
      omega
    · have hge : 50 ≤ es.length := by omega
      have hlendrop : (es.drop (es.length - 50)).length = 50 := by
        rw [List.length_drop]; omega
      have hcond : (es.drop (es.length - 50) ++ [e]).length > 50 := by
        rw [List.length_append, hlendrop]; simp
      rw [if_pos hcond]
      constructor
      · simp only [List.length_drop, List.length_append, hlendrop,
          List.length_singleton]
        omega
      · have hlen2 : (es ++ [e]).length = es.length + 1 := by simp
        rw [hlen2]
        have h1 : (es ++ [e]).drop (es.length + 1 - 50) =
            es.drop (es.length + 1 - 50) ++ [e] :=
          List.drop_append_of_le_length (by omega)
        have h2 : (es.drop (es.length - 50) ++ [e]).drop 1 =
            (es.drop (es.length - 50)).drop 1 ++ [e] :=
          List.drop_append_of_le_length (by rw [hlendrop]; omega)
        rw [h1, h2, List.drop_drop]
        have harith : es.length - 50 + 1 = es.length + 1 - 50 := by omega
        rw [harith]

/-! ## Theorems: service worker cache bookkeeping -/

theorem length_le_one_of_nodup_all_eq {α : Type} {l : List α} {a : α}
    (hnd : l.Nodup) (hall : ∀ x ∈ l, x = a) : l.length ≤ 1 := by
  match l with
  | [] => simp
  | [x] => simp
  | x :: y :: t =>
    exfalso
    have hx : x = a := hall x (by simp)
    have hy : y = a := hall y (by simp)
    have := List.nodup_cons.mp hnd
    exact this.1 (by simp [hx, hy])

/-- C8: after activation with a new cache name, every cache sharing the
version prefix other than the new cache name is gone, so (cache names
being unique keys) at most one same-prefix cache survives; the clear-cache
message command deletes exactly the active cache and sends an
acknowledgement back. -/
theorem sw_cache_versioning_spec (versionPfx newName activeName : String)
    (caches : List String) (hnodup : caches.Nodup) :
    (∀ c ∈ caches, versionPfx.isPrefixOf c = true → c ≠ newName →
      c ∉ swActivate versionPfx newName caches) ∧
    (∀ c ∈ swActivate versionPfx newName caches,
      versionPfx.isPrefixOf c = true → c = newName) ∧
    ((swActivate versionPfx newName caches).filter
        (fun c => versionPfx.isPrefixOf c)).length ≤ 1 ∧
    swHandleMessage activeName caches .clearCache =
      (caches.filter (fun c => c != activeName), true) := by
  have hsurv : ∀ c ∈ swActivate versionPfx newName caches,
      versionPfx.isPrefixOf c = true → c = newName := by
    intro c hc hpfx
    unfold swActivate at hc
    have := (List.mem_filter.mp hc).2
    simp [hpfx] at this
    exact this
  refine ⟨?_, hsurv, ?_, ?_⟩
  · intro c hc hpfx hne hmem
    exact hne (hsurv c hmem hpfx)
  · apply length_le_one_of_nodup_all_eq (a := newName)
    · exact (hnodup.filter _).filter _
    · intro x hx
      have hmem := (List.mem_filter.mp hx).1
      have hpfx := (List.mem_filter.mp hx).2
      exact hsurv x hmem (by simpa using hpfx)
  · unfold swHandleMessage
    rw [List.Nodup.erase_eq_filter hnodup]

theorem sw_cache_versioning_spec_witness :
    (["portfolio-v1", "portfolio-v2", "portfolio-v3",
        "other-cache"] : List String).Nodup ∧
    ((∀ c ∈ (["portfolio-v1", "portfolio-v2", "portfolio-v3",
          "other-cache"] : List String),
        ("portfolio-v" : String).isPrefixOf c = true → c ≠ "portfolio-v3" →
        c ∉ swActivate "portfolio-v" "portfolio-v3"
          ["portfolio-v1", "portfolio-v2", "portfolio-v3", "other-cache"]) ∧
     (∀ c ∈ swActivate "portfolio-v" "portfolio-v3"
          ["portfolio-v1", "portfolio-v2", "portfolio-v3", "other-cache"],
        ("portfolio-v" : String).isPrefixOf c = true → c = "portfolio-v3") ∧
     ((swActivate "portfolio-v" "portfolio-v3"
          ["portfolio-v1", "portfolio-v2", "portfolio-v3",
            "other-cache"]).filter
         (fun c => ("portfolio-v" : String).isPrefixOf c)).length ≤ 1 ∧
     swHandleMessage "portfolio-v3"
         ["portfolio-v1", "portfolio-v2", "portfolio-v3", "other-cache"]
         .clearCache =
       (["portfolio-v1", "portfolio-v2", "portfolio-v3",
           "other-cache"].filter (fun c => c != "portfolio-v3"), true)) :=
  ⟨by decide,
    sw_cache_versioning_spec "portfolio-v" "portfolio-v3" "portfolio-v3"
      ["portfolio-v1", "portfolio-v2", "portfolio-v3", "other-cache"]
      (by decide)⟩

end Portfolio
